import Mathlib

/-!
Verification development for the Anime-Clipper backend.

Shallow embedding of the analyzer and renderer worker pipelines
(`app/workers/analyzer.py`, `app/workers/renderer.py`) and of the job
endpoints (`app/api/jobs.py`).  Python floats are modelled by `ℚ`;
Python dicts by association lists or functional maps; the fallible
render loop by `Option`.
-/

namespace Clipper

/-- The effective analysis configuration as read by `analyze_video_task`
(`config.get('clip_min_s', 7)` etc., after the submission endpoint merged
the user's `targets` map over the `config.yaml` defaults). -/
structure AnalysisConfig where
  clip_min_s : ℚ
  clip_max_s : ℚ
  target_s : ℚ
  max_candidates : ℕ
deriving DecidableEq

/-- The `config.yaml` defaults for the analysis section. -/
def defaultConfig : AnalysisConfig :=
  { clip_min_s := 7, clip_max_s := 15, target_s := 10, max_candidates := 20 }

/-- The ordered trial-duration list `[target_duration, min_duration,
max_duration]` of `analyze_video_task` (analyzer.py line 365). -/
def trials (cfg : AnalysisConfig) : List ℚ :=
  [cfg.target_s, cfg.clip_min_s, cfg.clip_max_s]

/-- The candidate enumeration of `analyze_video_task` (analyzer.py lines
360-386), restricted to the produced intervals.  The input is the list of
`(scene_start, scene_end, duration)` triples in loop order; `D` is
`analyzer.duration` and `minDur` is `min_duration`.  A triple whose scene
is shorter than the trial duration is skipped (`continue`); otherwise the
interval `[s, min(s + d, t, D)]` is kept iff its length is at least
`minDur`. -/
def genPlain (D minDur : ℚ) : List (ℚ × ℚ × ℚ) → List (ℚ × ℚ)
  | [] => []
  | (s, t, d) :: rest =>
    if t - s < d then genPlain D minDur rest
    else if minDur ≤ min (min (s + d) t) D - s then
      (s, min (min (s + d) t) D) :: genPlain D minDur rest
    else genPlain D minDur rest

/-- Adjacent pairs `(scene_boundaries[i], scene_boundaries[i+1])` of the
scene-boundary list (analyzer.py lines 360-362). -/
def adjacentPairs : List ℚ → List (ℚ × ℚ)
  | a :: b :: rest => (a, b) :: adjacentPairs (b :: rest)
  | _ => []

/-- The `(scene_start, scene_end, duration)` triples visited by the two
nested loops of `analyze_video_task`, in loop order. -/
def sceneTrials (boundaries : List ℚ) (cfg : AnalysisConfig) : List (ℚ × ℚ × ℚ) :=
  (adjacentPairs boundaries).flatMap (fun p => (trials cfg).map (fun d => (p.1, p.2, d)))

/-- The intervals the code proposes for one adjacent scene pair `(s, t)`,
over the three trial durations. -/
def codeProposals (s t D : ℚ) (cfg : AnalysisConfig) : List (ℚ × ℚ) :=
  genPlain D cfg.clip_min_s ((trials cfg).map (fun d => (s, t, d)))

/-- Modelled from the spec's words (§4.4 Enumeration): "for each trial
duration in the ordered list `[target_s, clip_min_s, clip_max_s]`, propose
the interval `[s_i, min(s_i + trial, s_{i+1}, duration)]`; accept the
proposal iff its length is ≥ `clip_min_s`" — with no skipping of scenes
shorter than the trial duration.  Used only to compare the spec's claim
with the code's `codeProposals`. -/
def specProposals (s t D : ℚ) (cfg : AnalysisConfig) : List (ℚ × ℚ) :=
  (trials cfg).filterMap (fun d =>
    if cfg.clip_min_s ≤ min (min (s + d) t) D - s then some (s, min (min (s + d) t) D)
    else none)

/-- One word of a transcript: the dict
`{'word': ..., 'start': ..., 'end': ..., 'confidence': ...}` produced by
`transcribe_audio` (confidence is never read by the scorer and is
omitted).  `end` is a Lean keyword, hence the field name `end_`. -/
structure Word where
  word : String
  start : ℚ
  end_ : ℚ
deriving DecidableEq

/-- `hook_words` of `detect_hook_phrases` (analyzer.py line 201). -/
def hook_words : List String :=
  ["wait", "hey", "no", "stop", "what", "now", "look", "watch"]

/-- `question_words` of `detect_hook_phrases` (analyzer.py line 202). -/
def question_words : List String :=
  ["who", "what", "where", "when", "why", "how"]

/-- The characters removed by Python's `str.strip('.,!?')`. -/
def stripSet : List Char := ['.', ',', '!', '?']

/-- Python `s.strip('.,!?')`: removes leading and trailing characters
drawn from the set. -/
def pyStrip (s : String) : String :=
  String.mk (((s.toList.dropWhile (· ∈ stripSet)).reverse.dropWhile
    (· ∈ stripSet)).reverse)

/-- Python `s.lower()`, character-wise (`Char.toLower`; the hook and
question vocabularies are ASCII, where the two coincide). -/
def pyLower (s : String) : String := String.mk (s.toList.map Char.toLower)

/-- Python `s.endswith('!')` (single-character suffix): the last
character is `!`. -/
def pyEndsBang (s : String) : Bool := s.toList.getLast? == some '!'

/-- `detect_hook_phrases(words, start_s, end_s)` (analyzer.py lines
199-222): words starting outside `[start_s, end_s]` are skipped; within
the early window `[start_s, start_s + 2.5]` each hook word adds 0.5,
each question word 0.3, and a trailing `!` on the original token 0.2;
the sum is clamped to 1.0. -/
def detect_hook_phrases (words : List Word) (start_s end_s : ℚ) : ℚ :=
  min
    (words.foldl (fun score w =>
      if w.start < start_s ∨ w.start > end_s then score
      else if w.start ≤ start_s + 5 / 2 then
        score + (if pyStrip (pyLower w.word) ∈ hook_words then 1 / 2 else 0)
          + (if pyStrip (pyLower w.word) ∈ question_words then 3 / 10 else 0)
          + (if pyEndsBang w.word then 1 / 5 else 0)
      else score) 0)
    1

/-- Python `int(q)`: truncation toward zero. -/
def pyInt (q : ℚ) : ℤ := if 0 ≤ q then q.floor else q.ceil

/-- Normalize one Python slice index against a list length. -/
def pySliceIdx (n : ℕ) (i : ℤ) : ℕ :=
  if i < 0 then (max ((n : ℤ) + i) 0).toNat else min i.toNat n

/-- Python `l[i:j]` for integer indices (negative indices count from the
end, out-of-range indices are clamped). -/
def pySlice {α : Type} (l : List α) (i j : ℤ) : List α :=
  (l.take (pySliceIdx l.length j)).drop (pySliceIdx l.length i)

/-- `np.mean` over a rational list.  The source's `np.mean([])` is a
float NaN; the model returns 0 in that case (no claim below evaluates
the mean of an empty slice). -/
def npMean (l : List ℚ) : ℚ := if l = [] then 0 else l.sum / l.length

/-- The scene-freshness axis of `score_candidate` (analyzer.py lines
253-259): for each previously accepted `(ex_start, ex_end)`, the overlap
`min(end_s, ex_end) - max(start_s, ex_start)` is added, when positive,
as `overlap / (end_s - start_s)` to a penalty; freshness is
`max(0, 1 - penalty)`. -/
def scene_freshness (start_s end_s : ℚ) (existing : List (ℚ × ℚ)) : ℚ :=
  max 0 (1 - existing.foldl (fun pen p =>
    if 0 < min end_s p.2 - max start_s p.1 then
      pen + (min end_s p.2 - max start_s p.1) / (end_s - start_s)
    else pen) 0)

/-- Python `needle in hay` on strings (substring test). -/
def pySubstr (needle hay : String) : Bool :=
  if needle = "" then true else 1 < (hay.splitOn needle).length

/-- `weights.get(key, default)` on the weights dict, modelled as an
association list. -/
def wget (w : List (String × ℚ)) (k : String) (d : ℚ) : ℚ :=
  match w.lookup k with
  | some v => v
  | none => d

/-- The five feature axes returned by `score_candidate`. -/
structure Features where
  speech_hook : ℚ
  motion : ℚ
  audio_peak : ℚ
  keyword_match : ℚ
  scene_freshness : ℚ
deriving DecidableEq

/-- `score_candidate` (analyzer.py lines 225-278): the five axes and
their weighted sum, with the dict-lookup defaults of the source. -/
def score_candidate (start_s end_s : ℚ) (transcript_words : List Word)
    (motion_scores audio_scores : List ℚ) (keywords : List String)
    (existing_candidates : List (ℚ × ℚ)) (weights : List (String × ℚ)) :
    ℚ × Features :=
  let speech_hook := detect_hook_phrases transcript_words start_s end_s
  let start_idx := pyInt start_s
  let end_idx := pyInt end_s
  let motion_score :=
    if start_idx < (motion_scores.length : ℤ) then
      npMean (pySlice motion_scores start_idx end_idx)
    else 0
  let audio_score :=
    if start_idx < (audio_scores.length : ℤ) then
      npMean (pySlice audio_scores start_idx end_idx)
    else 0
  let segment_words := (transcript_words.filter
    (fun w => start_s ≤ w.start ∧ w.start ≤ end_s)).map (fun w => pyLower w.word)
  let joined := String.intercalate " " segment_words
  let kwCount : ℚ := ((keywords.filter (fun kw => pySubstr (pyLower kw) joined)).length : ℚ)
  let keyword_score := min (kwCount / (max keywords.length 1 : ℕ)) 1
  let freshness := scene_freshness start_s end_s existing_candidates
  let total :=
    wget weights "speech_hook" (30 / 100) * speech_hook +
    wget weights "motion" (25 / 100) * motion_score +
    wget weights "audio_peak" (20 / 100) * audio_score +
    wget weights "keyword_match" (15 / 100) * keyword_score +
    wget weights "scene_freshness" (10 / 100) * freshness
  (total, ⟨speech_hook, motion_score, audio_score, keyword_score, freshness⟩)

/-- The penalty contribution of one previously accepted candidate in
`scene_freshness`: `overlap / (end_s - start_s)` when the overlap is
positive, 0 otherwise. -/
def overlapTerm (start_s end_s : ℚ) (p : ℚ × ℚ) : ℚ :=
  if 0 < min end_s p.2 - max start_s p.1 then
    (min end_s p.2 - max start_s p.1) / (end_s - start_s)
  else 0

/-- The transcript of the spec's hook-detection scenario (§8 scenario 1). -/
def c3words : List Word :=
  [⟨"wait", 1 / 5, 1 / 2⟩, ⟨"what", 3 / 5, 1⟩, ⟨"is", 11 / 10, 13 / 10⟩]

/-- One entry of the in-memory `candidates` list built by
`analyze_video_task` (analyzer.py lines 380-385). -/
structure ScoredCand where
  start_s : ℚ
  end_s : ℚ
  score : ℚ
  features : Features
deriving DecidableEq

/-- The candidate-generation loop of `analyze_video_task` (analyzer.py
lines 360-386) over the `(scene_start, scene_end, duration)` triples in
loop order, threading the `existing_segments` accumulator: an accepted
interval is scored against the segments accepted so far and then
appended to them. -/
def runGen (D minDur : ℚ) (sc : ℚ → ℚ → List (ℚ × ℚ) → ℚ × Features) :
    List (ℚ × ℚ × ℚ) → List (ℚ × ℚ) → List ScoredCand
  | [], _ => []
  | (s, t, d) :: rest, existing =>
    if t - s < d then runGen D minDur sc rest existing
    else if minDur ≤ min (min (s + d) t) D - s then
      ⟨s, min (min (s + d) t) D,
        (sc s (min (min (s + d) t) D) existing).1,
        (sc s (min (min (s + d) t) D) existing).2⟩ ::
        runGen D minDur sc rest (existing ++ [(s, min (min (s + d) t) D)])
    else runGen D minDur sc rest existing

/-- The scoring closure `analyze_video_task` passes to
`score_candidate`: transcript words, motion and audio signals, keywords
and weights are fixed for the whole run. -/
def analyzeScorer (words : List Word) (mot aud : List ℚ) (kws : List String)
    (weights : List (String × ℚ)) : ℚ → ℚ → List (ℚ × ℚ) → ℚ × Features :=
  fun a b ex => score_candidate a b words mot aud kws ex weights

/-- The full scored candidate list of one analyze run. -/
def generateScored (boundaries : List ℚ) (D : ℚ) (cfg : AnalysisConfig)
    (words : List Word) (mot aud : List ℚ) (kws : List String)
    (weights : List (String × ℚ)) : List ScoredCand :=
  runGen D cfg.clip_min_s (analyzeScorer words mot aud kws weights)
    (sceneTrials boundaries cfg) []

/-- One step of a stable descending insertion sort on the score key:
the new element goes after every element of score ≥ its own. -/
def insertDesc (c : ScoredCand) : List ScoredCand → List ScoredCand
  | [] => [c]
  | x :: xs => if c.score > x.score then c :: x :: xs else x :: insertDesc c xs

/-- `candidates.sort(key=lambda x: x['score'], reverse=True)`
(analyzer.py line 389): Python's stable sort, descending by score. -/
def sortByScoreDesc (l : List ScoredCand) : List ScoredCand :=
  l.foldl (fun acc c => insertDesc c acc) []

/-- The `(start_s, end_s)` intervals of the Candidate rows persisted by
`analyze_video_task` (lines 388-419): the generated candidates sorted by
score descending, truncated to `max_candidates`, each stored as a
Candidate row. -/
def persistedCandidates (boundaries : List ℚ) (D : ℚ) (cfg : AnalysisConfig)
    (words : List Word) (mot aud : List ℚ) (kws : List String)
    (weights : List (String × ℚ)) : List (ℚ × ℚ) :=
  ((sortByScoreDesc (generateScored boundaries D cfg words mot aud kws
    weights)).take cfg.max_candidates).map (fun c => (c.start_s, c.end_s))

/-- The boundary timestamps emitted by the comparison loop of
`VideoAnalyzer.detect_scenes` (analyzer.py lines 88-109).  Frames are
sampled every 3rd frame; the first sample only initializes `prev_hist`,
so the `j`-th histogram comparison happens at sampled frame `3 * (j + 1)`
and `diffs` lists the successive L1 histogram distances.  A timestamp
`frame_index / fps` is emitted whenever the distance exceeds the
threshold. -/
def cutTimes (fps threshold : ℚ) : ℕ → List ℚ → List ℚ
  | _, [] => []
  | j, d :: rest =>
    if d > threshold then
      3 * ((j : ℚ) + 1) / fps :: cutTimes fps threshold (j + 1) rest
    else cutTimes fps threshold (j + 1) rest

/-- `VideoAnalyzer.detect_scenes` (analyzer.py lines 80-113): the list
starts at `0.0`, the comparison loop appends the emitted cut timestamps,
and `self.duration` is appended unconditionally at the end. -/
def detect_scenes (fps duration threshold : ℚ) (diffs : List ℚ) : List ℚ :=
  0 :: (cutTimes fps threshold 0 diffs ++ [duration])

/-- The Job columns written during a job's lifecycle: `status`,
`progress`, and the number of Candidate rows stored for the job's
video. -/
structure JobState where
  status : String
  progress : ℕ
  candidates : ℕ
deriving DecidableEq

/-- The database writes that touch a Job or its Candidate rows.
`workerStart` is the worker's entry block (analyzer.py lines 301-304);
`addCandidate` one Candidate insert (line 417); `complete` the success
epilogue (lines 421-425); `fail` the exception handler (line 434);
`cancelReq` the DELETE endpoint `cancel_job` (jobs.py lines 292-302). -/
inductive JobEvent where
  | workerStart
  | addCandidate
  | complete
  | fail
  | cancelReq
deriving DecidableEq

/-- Effect of one write on the job state.  `workerStart`
unconditionally sets `status = 'processing'`, `progress = 0` — there is
no check of the current status.  `cancelReq` sets `status = 'cancelled'`
only when the current status is `pending` or `processing`; otherwise the
endpoint answers 400 and leaves the row unchanged.  The worker never
reads `status` back during a run. -/
def applyEvent (st : JobState) : JobEvent → JobState
  | .workerStart => { st with status := "processing", progress := 0 }
  | .addCandidate => { st with candidates := st.candidates + 1 }
  | .complete => { st with status := "completed", progress := 100 }
  | .fail => { st with status := "failed" }
  | .cancelReq =>
    if st.status = "pending" ∨ st.status = "processing" then
      { st with status := "cancelled" }
    else st

/-- A sequence of writes applied in order. -/
def applyTrace (st : JobState) (t : List JobEvent) : JobState :=
  t.foldl applyEvent st

/-- The terminal job statuses of the spec (§3). -/
def terminalStatus (s : String) : Prop :=
  s = "completed" ∨ s = "failed" ∨ s = "cancelled"

/-- A job as created by the submission endpoint (jobs.py lines 132-138). -/
def initJob : JobState := { status := "pending", progress := 0, candidates := 0 }

/-- The write trace of a successful analyze run that stores `k`
candidates: the entry block, `k` Candidate inserts, the success
epilogue.  (The milestone `self.update_state` calls write Celery task
metadata, not the Job row.) -/
def analyzeRun (k : ℕ) : List JobEvent :=
  JobEvent.workerStart :: (List.replicate k JobEvent.addCandidate ++ [JobEvent.complete])

/-- The cancellation endpoint's write interleaved at position `i` of a
worker trace. -/
def cancelAt : ℕ → List JobEvent → List JobEvent
  | 0, t => JobEvent.cancelReq :: t
  | _ + 1, [] => [JobEvent.cancelReq]
  | n + 1, e :: t => e :: cancelAt n t

/-- A JSON-like value: the shape of configs and `logs` payloads. -/
inductive JVal where
  | num : ℚ → JVal
  | str : String → JVal
  | arr : List JVal → JVal
  | obj : List (String × JVal) → JVal

/-- Python `dict.get(k, d)` over an object's association list. -/
def objGet (l : List (String × JVal)) (k : String) (dflt : JVal) : JVal :=
  match l.lookup k with
  | some v => v
  | none => dflt

/-- The `analysis` section of `load_config()`'s fallback defaults
(jobs.py lines 48-69). -/
def analysisSection : List (String × JVal) :=
  [("clip_min_s", .num 7), ("clip_max_s", .num 15), ("target_s", .num 10),
   ("candidates_per_minute", .num 4), ("max_candidates", .num 20)]

/-- The `scoring.weights` section of the defaults. -/
def weightsSection : JVal :=
  .obj [("speech_hook", .num (30 / 100)), ("motion", .num (25 / 100)),
        ("audio_peak", .num (20 / 100)), ("keyword_match", .num (15 / 100)),
        ("scene_freshness", .num (10 / 100))]

/-- `load_config()` (jobs.py lines 41-69): the nested
`{analysis, scoring, whisper}` object returned when `config.yaml` is
absent. -/
def load_config : JVal :=
  .obj [("analysis", .obj analysisSection),
        ("scoring", .obj [("weights", weightsSection)]),
        ("whisper", .obj [("model", .str "base"), ("language", .str "auto")])]

/-- Python `dict.update` / key assignment on an association list:
existing keys keep their position and take the new value, new keys are
appended in order. -/
def dictUpdate (base upd : List (String × JVal)) : List (String × JVal) :=
  (base.map (fun p =>
    match upd.lookup p.1 with
    | some v => (p.1, v)
    | none => p)) ++
    upd.filter (fun q => !((base.map Prod.fst).contains q.1))

/-- `start_analysis`'s config construction (jobs.py lines 117-129): the
`analysis` defaults merged with the user's `targets` map, then the
`keywords`, `weights`, `whisper_model` and `language` assignments. -/
def buildAnalysisConfig (keywords : List String)
    (targets : List (String × JVal)) : List (String × JVal) :=
  dictUpdate (dictUpdate analysisSection targets)
    [("keywords", .arr (keywords.map .str)),
     ("weights", weightsSection),
     ("whisper_model", .str "base"),
     ("language", .str "auto")]

/-- The `logs` value written by `analyze_video_task`'s exception handler
(analyzer.py line 435): only an `error` key.  (The success path writes
only `candidates_generated`, and the submission endpoint creates the job
with empty logs — no code path ever stores a `config` key.) -/
def analyzeFailureLogs (msg : String) : List (String × JVal) :=
  [("error", .str msg)]

/-- `retry_job`'s config selection (jobs.py line 363):
`original_job.logs.get('config', load_config())`. -/
def retryLaunchConfig (origLogs : List (String × JVal)) : JVal :=
  objGet origLogs "config" load_config

/-- The object's entries when the config value is a dict, else `[]`. -/
def asObj : JVal → List (String × JVal)
  | .obj l => l
  | _ => []

/-- The worker's `config.get(key, default)` read of a numeric setting
(analyzer.py lines 350-352). -/
def cfgNum (cfg : List (String × JVal)) (k : String) (dflt : ℚ) : ℚ :=
  match cfg.lookup k with
  | some (.num q) => q
  | _ => dflt

/-- The worker's `config.get('keywords', [])` read (analyzer.py
line 353). -/
def cfgArr (cfg : List (String × JVal)) (k : String) : List JVal :=
  match cfg.lookup k with
  | some (.arr l) => l
  | _ => []

/-- The environment `render_clips_task` runs against: whether a
candidate id resolves to a Candidate row (renderer.py lines 319-321) and
whether the render-and-upload of one `(candidate, aspect)` pair succeeds
(lines 353-364; a failure raises and reaches the task's exception
handler). -/
structure RenderEnv where
  candExists : String → Bool
  renderOk : String → String → Bool

/-- The `rendered_files` nested dict `candidate_id → aspect → url`,
modelled functionally. -/
def FileMap : Type := String → Option (String → Option String)

/-- The initial `rendered_files = {}` (renderer.py line 314). -/
def emptyFiles : FileMap := fun _ => none

/-- The upload key `renders/{render_id}/{candidate_id}_{aspect with ':'
replaced by 'x'}.mp4` (renderer.py lines 349, 363). -/
def s3RenderKey (renderId c a : String) : String :=
  "renders/" ++ renderId ++ "/" ++ c ++ "_" ++ (a.replace ":" "x") ++ ".mp4"

/-- The tracking writes of renderer.py lines 367-369: ensure the
candidate's inner dict exists, then set the aspect key. -/
def setFile (m : FileMap) (c a url : String) : FileMap :=
  fun c' =>
    if c' = c then
      some (fun a' =>
        if a' = a then some url
        else
          match m c with
          | some inner => inner a'
          | none => none)
    else m c'

/-- The value of `render.files` at the end of the task: the
`rendered_files` dict on success (line 376), or the `{'error': msg}`
dict substituted by the exception handler (line 383). -/
inductive RFiles where
  | map : FileMap → RFiles
  | errObj : String → RFiles

/-- A `files[candidate_id][aspect]` key exists. -/
def fileSet (m : FileMap) (c a : String) : Prop :=
  ∃ inner, m c = some inner ∧ ∃ u, inner a = some u

/-- Key existence on the final `files` value: the error dict holds no
per-pair keys. -/
def hasFile : RFiles → String → String → Prop
  | .map m, c, a => fileSet m c a
  | .errObj _, _, _ => False

/-- The inner aspect loop (renderer.py lines 341-372) for one candidate:
renders each requested aspect in order, recording the upload; a failing
pair aborts with the raised error (`none`). -/
def renderAspects (env : RenderEnv) (renderId c : String) :
    List String → FileMap → Option FileMap
  | [], acc => some acc
  | a :: rest, acc =>
    if env.renderOk c a then
      renderAspects env renderId c rest (setFile acc c a (s3RenderKey renderId c a))
    else none

/-- The outer candidate loop (renderer.py lines 318-377): a candidate id
with no Candidate row is skipped (`continue`); a pair failure reaches
the exception handler, which sets `status = 'failed'` and replaces
`files` with the error dict; if the loop finishes, `status = 'completed'`
and `files = rendered_files`. -/
def renderLoop (env : RenderEnv) (renderId : String) (outputs : List String) :
    List String → FileMap → String × RFiles
  | [], acc => ("completed", .map acc)
  | c :: rest, acc =>
    if env.candExists c then
      match renderAspects env renderId c outputs acc with
      | some acc2 => renderLoop env renderId outputs rest acc2
      | none => ("failed", .errObj "FFmpeg failed")
    else renderLoop env renderId outputs rest acc

/-- `render_clips_task` (renderer.py lines 281-387), restricted to its
effect on the Render row's `status` and `files` columns. -/
def render_clips_task (env : RenderEnv) (renderId : String)
    (candidate_ids outputs : List String) : String × RFiles :=
  renderLoop env renderId outputs candidate_ids emptyFiles

end Clipper

namespace Clipper

lemma mem_genPlain {D minDur : ℚ} {tr : List (ℚ × ℚ × ℚ)} {a b : ℚ} :
    (a, b) ∈ genPlain D minDur tr ↔
      ∃ s t d, (s, t, d) ∈ tr ∧ ¬ t - s < d ∧ a = s ∧
        b = min (min (s + d) t) D ∧ minDur ≤ b - a := by
  induction tr with
  | nil => simp [genPlain]
  | cons hd tl ih =>
    obtain ⟨s0, t0, d0⟩ := hd
    simp only [genPlain, List.mem_cons, Prod.mk.injEq]
    split_ifs with hskip hkeep
    · rw [ih]
      constructor
      · rintro ⟨s, t, d, hm, h⟩
        exact ⟨s, t, d, Or.inr hm, h⟩
      · rintro ⟨s, t, d, (⟨rfl, rfl, rfl⟩ | hm'), hlt, ha, hb, hmin⟩
        · exact absurd hskip hlt
        · exact ⟨s, t, d, hm', hlt, ha, hb, hmin⟩
    · simp only [List.mem_cons, Prod.mk.injEq]
      rw [ih]
      constructor
      · rintro (⟨ha, hb⟩ | ⟨s, t, d, hm, h⟩)
        · exact ⟨s0, t0, d0, Or.inl ⟨rfl, rfl, rfl⟩, hskip, ha, hb,
            by rw [ha, hb]; exact hkeep⟩
        · exact ⟨s, t, d, Or.inr hm, h⟩
      · rintro ⟨s, t, d, (⟨rfl, rfl, rfl⟩ | hm'), hlt, ha, hb, hmin⟩
        · exact Or.inl ⟨ha, hb⟩
        · exact Or.inr ⟨s, t, d, hm', hlt, ha, hb, hmin⟩
    · rw [ih]
      constructor
      · rintro ⟨s, t, d, hm, h⟩
        exact ⟨s, t, d, Or.inr hm, h⟩
      · rintro ⟨s, t, d, (⟨rfl, rfl, rfl⟩ | hm'), hlt, ha, hb, hmin⟩
        · subst ha; subst hb; exact absurd hmin hkeep
        · exact ⟨s, t, d, hm', hlt, ha, hb, hmin⟩

lemma freshness_foldl (start_s end_s : ℚ) (l : List (ℚ × ℚ)) (acc : ℚ) :
    l.foldl (fun pen p =>
      if 0 < min end_s p.2 - max start_s p.1 then
        pen + (min end_s p.2 - max start_s p.1) / (end_s - start_s)
      else pen) acc
    = acc + (l.map (overlapTerm start_s end_s)).sum := by
  induction l generalizing acc with
  | nil => simp
  | cons p tl ih =>
    simp only [List.foldl_cons, List.map_cons, List.sum_cons, ih, overlapTerm]
    split_ifs with h <;> ring

lemma scene_freshness_eq_sum (start_s end_s : ℚ) (l : List (ℚ × ℚ)) :
    scene_freshness start_s end_s l
      = max 0 (1 - (l.map (overlapTerm start_s end_s)).sum) := by
  unfold scene_freshness
  rw [freshness_foldl]
  ring_nf

lemma overlapTerm_nonneg {start_s end_s : ℚ} (h : start_s < end_s) (p : ℚ × ℚ) :
    0 ≤ overlapTerm start_s end_s p := by
  unfold overlapTerm
  split_ifs with hc
  · exact div_nonneg (le_of_lt hc) (by linarith)
  · exact le_refl 0

lemma mem_insertDesc {c x : ScoredCand} {l : List ScoredCand} :
    x ∈ insertDesc c l ↔ x = c ∨ x ∈ l := by
  induction l with
  | nil => simp [insertDesc]
  | cons h t ih =>
    simp only [insertDesc]
    split_ifs with hgt
    · simp [List.mem_cons]
    · simp only [List.mem_cons, ih]
      tauto

lemma mem_sortFold (l acc : List ScoredCand) (x : ScoredCand) :
    x ∈ l.foldl (fun acc c => insertDesc c acc) acc ↔ x ∈ acc ∨ x ∈ l := by
  induction l generalizing acc with
  | nil => simp
  | cons c t ih =>
    simp only [List.foldl_cons, ih, mem_insertDesc, List.mem_cons]
    tauto

lemma mem_sortByScoreDesc {l : List ScoredCand} {x : ScoredCand} :
    x ∈ sortByScoreDesc l ↔ x ∈ l := by
  unfold sortByScoreDesc
  rw [mem_sortFold]
  simp

lemma length_insertDesc (c : ScoredCand) (l : List ScoredCand) :
    (insertDesc c l).length = l.length + 1 := by
  induction l with
  | nil => rfl
  | cons h t ih =>
    simp only [insertDesc]
    split_ifs with hgt
    · simp
    · simp [ih]

lemma length_sortFold (l acc : List ScoredCand) :
    (l.foldl (fun acc c => insertDesc c acc) acc).length = acc.length + l.length := by
  induction l generalizing acc with
  | nil => simp
  | cons c t ih =>
    simp only [List.foldl_cons, ih, length_insertDesc, List.length_cons]
    omega

lemma length_sortByScoreDesc (l : List ScoredCand) :
    (sortByScoreDesc l).length = l.length := by
  unfold sortByScoreDesc
  rw [length_sortFold]
  simp

lemma intervals_runGen (D m : ℚ) (sc : ℚ → ℚ → List (ℚ × ℚ) → ℚ × Features)
    (tr : List (ℚ × ℚ × ℚ)) : ∀ ex,
    (runGen D m sc tr ex).map (fun c => (c.start_s, c.end_s)) = genPlain D m tr := by
  induction tr with
  | nil => intro ex; rfl
  | cons hd tl ih =>
    intro ex
    obtain ⟨s, t, d⟩ := hd
    simp only [runGen, genPlain]
    split_ifs with h1 h2
    · exact ih ex
    · simp only [List.map_cons, ih]
    · exact ih ex

lemma adjacentPairs_mem : ∀ {bs : List ℚ} {p : ℚ × ℚ},
    p ∈ adjacentPairs bs → p.1 ∈ bs ∧ p.2 ∈ bs
  | [], p, h => by simp [adjacentPairs] at h
  | [a], p, h => by simp [adjacentPairs] at h
  | a :: b :: rest, p, h => by
    rcases List.mem_cons.mp h with rfl | h'
    · exact ⟨List.mem_cons_self .., List.mem_cons_of_mem _ (List.mem_cons_self ..)⟩
    · have hr := adjacentPairs_mem h'
      exact ⟨List.mem_cons_of_mem _ hr.1, List.mem_cons_of_mem _ hr.2⟩

lemma mem_sceneTrials {bs : List ℚ} {cfg : AnalysisConfig} {s t d : ℚ} :
    (s, t, d) ∈ sceneTrials bs cfg ↔
      ∃ p ∈ adjacentPairs bs, s = p.1 ∧ t = p.2 ∧ d ∈ trials cfg := by
  unfold sceneTrials
  rw [List.mem_flatMap]
  constructor
  · rintro ⟨p, hp, hm⟩
    rcases List.mem_map.mp hm with ⟨d0, hd0, heq⟩
    obtain ⟨h1, h2, h3⟩ : p.1 = s ∧ p.2 = t ∧ d0 = d := by simpa using heq
    exact ⟨p, hp, h1.symm, h2.symm, h3 ▸ hd0⟩
  · rintro ⟨p, hp, rfl, rfl, hd⟩
    exact ⟨p, hp, List.mem_map.mpr ⟨d, hd, rfl⟩⟩

lemma cutTimes_lower_bound {fps threshold : ℚ} (hfps : 0 < fps) :
    ∀ (diffs : List ℚ) (j : ℕ) (x : ℚ), x ∈ cutTimes fps threshold j diffs →
      3 * ((j : ℚ) + 1) / fps ≤ x := by
  intro diffs
  induction diffs with
  | nil => intro j x hx; simp [cutTimes] at hx
  | cons d rest ih =>
    intro j x hx
    have hstep : 3 * ((j : ℚ) + 1) / fps ≤ 3 * (((j : ℚ) + 1) + 1) / fps :=
      le_of_lt ((div_lt_div_iff_of_pos_right hfps).mpr (by linarith))
    simp only [cutTimes] at hx
    split_ifs at hx with hd
    · rcases List.mem_cons.mp hx with rfl | hx'
      · exact le_refl _
      · have := ih (j + 1) x hx'
        push_cast at this ⊢
        linarith
    · have := ih (j + 1) x hx
      push_cast at this ⊢
      linarith

lemma cutTimes_pos {fps threshold : ℚ} (hfps : 0 < fps) (diffs : List ℚ)
    (j : ℕ) (x : ℚ) (hx : x ∈ cutTimes fps threshold j diffs) : 0 < x := by
  have hlb := cutTimes_lower_bound hfps diffs j x hx
  have hnum : (0 : ℚ) < 3 * ((j : ℚ) + 1) := by positivity
  have := div_pos hnum hfps
  linarith

lemma cutTimes_pairwise {fps threshold : ℚ} (hfps : 0 < fps) :
    ∀ (diffs : List ℚ) (j : ℕ),
      List.Pairwise (· < ·) (cutTimes fps threshold j diffs) := by
  intro diffs
  induction diffs with
  | nil => intro j; simp [cutTimes]
  | cons d rest ih =>
    intro j
    simp only [cutTimes]
    split_ifs with hd
    · refine List.pairwise_cons.mpr ⟨?_, ih (j + 1)⟩
      intro x hx
      have hlb := cutTimes_lower_bound hfps rest (j + 1) x hx
      have hlt : 3 * ((j : ℚ) + 1) / fps < 3 * (((j : ℚ) + 1) + 1) / fps :=
        (div_lt_div_iff_of_pos_right hfps).mpr (by linarith)
      push_cast at hlb ⊢
      linarith
    · exact ih (j + 1)

lemma applyEvent_cancel_candidates (st : JobState) :
    (applyEvent st .cancelReq).candidates = st.candidates := by
  unfold applyEvent
  split_ifs <;> rfl

lemma applyEvent_workerStart_candidates (st : JobState) :
    (applyEvent st .workerStart).candidates = st.candidates := rfl

lemma run_tail (m : ℕ) (st : JobState) :
    applyTrace st (List.replicate m JobEvent.addCandidate ++ [JobEvent.complete]) =
      ⟨"completed", 100, st.candidates + m⟩ := by
  induction m generalizing st with
  | zero => simp [applyTrace, applyEvent]
  | succ n ih =>
    rw [List.replicate_succ, List.cons_append]
    show applyTrace (applyEvent st .addCandidate) _ = _
    rw [ih]
    show JobState.mk _ _ (st.candidates + 1 + n) = _
    rw [Nat.add_assoc, Nat.add_comm 1 n]

lemma cancel_run_tail (j m : ℕ) (st : JobState) :
    applyTrace st (cancelAt j
        (List.replicate m JobEvent.addCandidate ++ [JobEvent.complete])) =
      ⟨"completed", 100, st.candidates + m⟩ := by
  induction m generalizing j st with
  | zero =>
    cases j with
    | zero =>
      show JobState.mk "completed" 100 (applyEvent st .cancelReq).candidates = _
      rw [applyEvent_cancel_candidates, Nat.add_zero]
    | succ n =>
      show applyTrace (applyEvent st .complete) (cancelAt n []) = _
      cases n <;>
        simp [cancelAt, applyTrace, applyEvent]
  | succ n ih =>
    cases j with
    | zero =>
      show applyTrace (applyEvent st .cancelReq)
        (List.replicate (n + 1) JobEvent.addCandidate ++ [JobEvent.complete]) = _
      rw [run_tail, applyEvent_cancel_candidates]
    | succ i =>
      rw [List.replicate_succ, List.cons_append]
      show applyTrace (applyEvent st .addCandidate) (cancelAt i _) = _
      rw [ih]
      show JobState.mk _ _ (st.candidates + 1 + n) = _
      rw [Nat.add_assoc, Nat.add_comm 1 n]

lemma fileSet_setFile (m : FileMap) (c0 a0 u c a : String) :
    fileSet (setFile m c0 a0 u) c a ↔ (c = c0 ∧ a = a0) ∨ fileSet m c a := by
  unfold fileSet setFile
  by_cases hc : c = c0
  · subst hc
    rw [if_pos rfl]
    constructor
    · rintro ⟨inner, hinner, v, hv⟩
      obtain rfl : _ = inner := Option.some.inj hinner
      have hv2 : (if a = a0 then some u
          else match m c with | some inner => inner a | none => none) = some v := hv
      by_cases ha : a = a0
      · exact Or.inl ⟨rfl, ha⟩
      · rw [if_neg ha] at hv2
        right
        cases hmc : m c with
        | none => rw [hmc] at hv2; exact absurd hv2 (by simp)
        | some inner0 =>
          rw [hmc] at hv2
          exact ⟨inner0, rfl, v, hv2⟩
    · rintro (⟨-, rfl⟩ | ⟨inner, hinner, v, hv⟩)
      · exact ⟨_, rfl, u, if_pos rfl⟩
      · refine ⟨_, rfl, ?_⟩
        by_cases ha : a = a0
        · exact ⟨u, if_pos ha⟩
        · rw [if_neg ha, hinner]
          exact ⟨v, hv⟩
  · rw [if_neg hc]
    constructor
    · rintro h
      exact Or.inr h
    · rintro (⟨hcc, -⟩ | h)
      · exact absurd hcc hc
      · exact h

lemma renderAspects_ok (env : RenderEnv) (rid c0 : String) :
    ∀ (outs : List String) (acc acc2 : FileMap),
      renderAspects env rid c0 outs acc = some acc2 →
      ∀ c a, fileSet acc2 c a ↔ fileSet acc c a ∨ (c = c0 ∧ a ∈ outs) := by
  intro outs
  induction outs with
  | nil =>
    intro acc acc2 h c a
    obtain rfl : acc = acc2 := Option.some.inj h
    simp
  | cons a0 rest ih =>
    intro acc acc2 h c a
    rw [renderAspects] at h
    split_ifs at h with hok
    · rw [ih _ _ h, fileSet_setFile]
      simp only [List.mem_cons]
      tauto

lemma renderLoop_cases (env : RenderEnv) (rid : String) (outs : List String) :
    ∀ (ids : List String) (acc : FileMap),
      (∃ m, renderLoop env rid outs ids acc = ("completed", .map m) ∧
        ∀ c a, fileSet m c a ↔
          (fileSet acc c a ∨ (c ∈ ids ∧ env.candExists c = true ∧ a ∈ outs))) ∨
      (∃ msg, renderLoop env rid outs ids acc = ("failed", .errObj msg)) := by
  intro ids
  induction ids with
  | nil =>
    intro acc
    exact Or.inl ⟨acc, rfl, by simp⟩
  | cons c0 rest ih =>
    intro acc
    by_cases hex : env.candExists c0 = true
    · cases hasp : renderAspects env rid c0 outs acc with
      | none =>
        refine Or.inr ⟨"FFmpeg failed", ?_⟩
        rw [renderLoop, if_pos hex, hasp]
      | some acc2 =>
        rcases ih acc2 with ⟨m, heq, hiff⟩ | ⟨msg, heq⟩
        · refine Or.inl ⟨m, ?_, ?_⟩
          · rw [renderLoop, if_pos hex, hasp]
            exact heq
          · intro c a
            rw [hiff, renderAspects_ok env rid c0 outs acc acc2 hasp]
            simp only [List.mem_cons]
            constructor
            · rintro ((h | ⟨rfl, ha⟩) | ⟨hc, hcex, ha⟩)
              · exact Or.inl h
              · exact Or.inr ⟨Or.inl rfl, hex, ha⟩
              · exact Or.inr ⟨Or.inr hc, hcex, ha⟩
            · rintro (h | ⟨(rfl | hc), hcex, ha⟩)
              · exact Or.inl (Or.inl h)
              · exact Or.inl (Or.inr ⟨rfl, ha⟩)
              · exact Or.inr ⟨hc, hcex, ha⟩
        · refine Or.inr ⟨msg, ?_⟩
          rw [renderLoop, if_pos hex, hasp]
          exact heq
    · rcases ih acc with ⟨m, heq, hiff⟩ | ⟨msg, heq⟩
      · refine Or.inl ⟨m, ?_, ?_⟩
        · rw [renderLoop, if_neg hex]
          exact heq
        · intro c a
          rw [hiff]
          simp only [List.mem_cons]
          constructor
          · rintro (h | ⟨hc, hcex, ha⟩)
            · exact Or.inl h
            · exact Or.inr ⟨Or.inr hc, hcex, ha⟩
          · rintro (h | ⟨(rfl | hc), hcex, ha⟩)
            · exact Or.inl h
            · exact absurd hcex hex
            · exact Or.inr ⟨hc, hcex, ha⟩
      · refine Or.inr ⟨msg, ?_⟩
        rw [renderLoop, if_neg hex]
        exact heq

lemma fileSet_empty (c a : String) : ¬ fileSet emptyFiles c a := by
  rintro ⟨inner, hinner, -⟩
  exact absurd hinner (by simp [emptyFiles])

lemma renderAspects_all_ok (env : RenderEnv) (rid c0 : String) :
    ∀ (outs : List String) (acc : FileMap),
      (∀ a ∈ outs, env.renderOk c0 a = true) →
      ∃ acc2, renderAspects env rid c0 outs acc = some acc2 := by
  intro outs
  induction outs with
  | nil => intro acc _; exact ⟨acc, rfl⟩
  | cons a0 rest ih =>
    intro acc hok
    rw [renderAspects, if_pos (hok a0 (List.mem_cons_self ..))]
    exact ih _ (fun a ha => hok a (List.mem_cons_of_mem _ ha))

lemma renderLoop_all_ok (env : RenderEnv) (rid : String) (outs : List String) :
    ∀ (ids : List String) (acc : FileMap),
      (∀ c ∈ ids, env.candExists c = true → ∀ a ∈ outs, env.renderOk c a = true) →
      ∃ m, renderLoop env rid outs ids acc = ("completed", .map m) := by
  intro ids
  induction ids with
  | nil => intro acc _; exact ⟨acc, rfl⟩
  | cons c0 rest ih =>
    intro acc hok
    by_cases hex : env.candExists c0 = true
    · obtain ⟨acc2, hasp⟩ := renderAspects_all_ok env rid c0 outs acc
        (hok c0 (List.mem_cons_self ..) hex)
      rw [renderLoop, if_pos hex, hasp]
      exact ih acc2 (fun c hc => hok c (List.mem_cons_of_mem _ hc))
    · rw [renderLoop, if_neg hex]
      exact ih acc (fun c hc => hok c (List.mem_cons_of_mem _ hc))

lemma renderLoop_all_missing (env : RenderEnv) (rid : String) (outs : List String) :
    ∀ (ids : List String) (acc : FileMap),
      (∀ c ∈ ids, env.candExists c = false) →
      renderLoop env rid outs ids acc = ("completed", .map acc) := by
  intro ids
  induction ids with
  | nil => intro acc _; rfl
  | cons c0 rest ih =>
    intro acc hmiss
    have hex : ¬ env.candExists c0 = true := by
      rw [hmiss c0 (List.mem_cons_self ..)]
      simp
    rw [renderLoop, if_neg hex]
    exact ih acc (fun c hc => hmiss c (List.mem_cons_of_mem _ hc))

end Clipper

/-- C3 counterexample: on the transcript
`[{"wait",0.2,0.5},{"what",0.6,1.0},{"is",1.1,1.3}]` and interval
`[0,10]` the speech_hook axis is not 0.8: "what" belongs to both the
hook set (+0.5) and the question set (+0.3), so the sum is
0.5 + 0.5 + 0.3 = 1.3, clamped to 1.0. -/
theorem C3_counterexample :
    (Clipper.score_candidate 0 10 Clipper.c3words [] [] [] [] []).2.speech_hook
      ≠ 4 / 5 := by
  have h : (Clipper.score_candidate 0 10 Clipper.c3words [] [] [] [] []).2.speech_hook
      = Clipper.detect_hook_phrases Clipper.c3words 0 10 := rfl
  rw [h]
  have h1 : Clipper.pyStrip (Clipper.pyLower "wait") ∈ Clipper.hook_words := by decide
  have h2 : Clipper.pyStrip (Clipper.pyLower "wait") ∉ Clipper.question_words := by decide
  have h3 : Clipper.pyStrip (Clipper.pyLower "what") ∈ Clipper.hook_words := by decide
  have h4 : Clipper.pyStrip (Clipper.pyLower "what") ∈ Clipper.question_words := by decide
  have h5 : Clipper.pyStrip (Clipper.pyLower "is") ∉ Clipper.hook_words := by decide
  have h6 : Clipper.pyStrip (Clipper.pyLower "is") ∉ Clipper.question_words := by decide
  have e1 : Clipper.pyEndsBang "wait" = false := by decide
  have e2 : Clipper.pyEndsBang "what" = false := by decide
  have e3 : Clipper.pyEndsBang "is" = false := by decide
  simp only [Clipper.detect_hook_phrases, Clipper.c3words, List.foldl_cons,
    List.foldl_nil, h1, h3, h4, if_pos, if_neg h2, if_neg h5, if_neg h6, e1, e2, e3]
  norm_num

/-- C3 amended: on that transcript and interval the speech_hook axis
computed by the scorer equals 1.0 (both the hook-set and question-set
bonuses fire for "what", and the total 1.3 is clamped to 1.0). -/
theorem C3_speech_hook_value :
    (Clipper.score_candidate 0 10 Clipper.c3words [] [] [] [] []).2.speech_hook
      = 1 := by
  have h : (Clipper.score_candidate 0 10 Clipper.c3words [] [] [] [] []).2.speech_hook
      = Clipper.detect_hook_phrases Clipper.c3words 0 10 := rfl
  rw [h]
  have h1 : Clipper.pyStrip (Clipper.pyLower "wait") ∈ Clipper.hook_words := by decide
  have h2 : Clipper.pyStrip (Clipper.pyLower "wait") ∉ Clipper.question_words := by decide
  have h3 : Clipper.pyStrip (Clipper.pyLower "what") ∈ Clipper.hook_words := by decide
  have h4 : Clipper.pyStrip (Clipper.pyLower "what") ∈ Clipper.question_words := by decide
  have h5 : Clipper.pyStrip (Clipper.pyLower "is") ∉ Clipper.hook_words := by decide
  have h6 : Clipper.pyStrip (Clipper.pyLower "is") ∉ Clipper.question_words := by decide
  have e1 : Clipper.pyEndsBang "wait" = false := by decide
  have e2 : Clipper.pyEndsBang "what" = false := by decide
  have e3 : Clipper.pyEndsBang "is" = false := by decide
  simp only [Clipper.detect_hook_phrases, Clipper.c3words, List.foldl_cons,
    List.foldl_nil, h1, h3, h4, if_pos, if_neg h2, if_neg h5, if_neg h6, e1, e2, e3]
  norm_num

/-- C2 counterexample: the claim says a scene shorter than the trial
duration still yields a proposal clamped to the scene's end.  With the
default configuration (target 10, min 7, max 15), the scene pair
`(0, 8)` of a duration-8 video would then yield the clamped proposal
`(0, 8)` (length 8 ≥ 7, so the spec's enumeration accepts it), but the
code's enumeration skips every trial longer than the scene (`continue`
at analyzer.py line 367) and proposes only `(0, 7)`. -/
theorem C2_counterexample :
    (0, 8) ∈ Clipper.specProposals 0 8 8 Clipper.defaultConfig ∧
      (0, 8) ∉ Clipper.codeProposals 0 8 8 Clipper.defaultConfig := by
  have hspec : Clipper.specProposals 0 8 8 Clipper.defaultConfig =
      [(0, 8), (0, 7), (0, 8)] := by
    simp only [Clipper.specProposals, Clipper.trials, Clipper.defaultConfig,
      List.filterMap_cons, List.filterMap_nil]
    norm_num
  have hcode : Clipper.codeProposals 0 8 8 Clipper.defaultConfig = [(0, 7)] := by
    simp only [Clipper.codeProposals, Clipper.trials, Clipper.defaultConfig,
      List.map_cons, List.map_nil, Clipper.genPlain]
    norm_num
  rw [hspec, hcode]
  norm_num

/-- C2 amended: for every adjacent scene pair `(s, t)` and every trial
duration `d` in the ordered list `[target_s, clip_min_s, clip_max_s]`,
the code proposes the interval `[s, min(s + d, t, duration)]` only when
the scene is at least `d` long (scenes shorter than the trial are
skipped with no clamped proposal), and accepts it iff its length is at
least `clip_min_s`. -/
theorem C2_enumeration_characterization (s t D : ℚ) (cfg : Clipper.AnalysisConfig)
    (a b : ℚ) :
    (a, b) ∈ Clipper.codeProposals s t D cfg ↔
      ∃ d ∈ Clipper.trials cfg, ¬ t - s < d ∧ a = s ∧
        b = min (min (s + d) t) D ∧ cfg.clip_min_s ≤ b - a := by
  unfold Clipper.codeProposals
  rw [Clipper.mem_genPlain]
  simp only [List.mem_map, Prod.mk.injEq]
  constructor
  · rintro ⟨s', t', d', ⟨d0, hd0, rfl, rfl, rfl⟩, hlt, ha, hb, hmin⟩
    exact ⟨d0, hd0, hlt, ha, hb, hmin⟩
  · rintro ⟨d, hd, hlt, ha, hb, hmin⟩
    exact ⟨s, t, d, ⟨d, hd, rfl, rfl, rfl⟩, hlt, ha, hb, hmin⟩

/-- C7: the scene_freshness axis is antitone in the predecessor list:
for a candidate `[a, b]` with `a < b`, inserting one more previously
accepted interval anywhere in the acceptance order never increases the
freshness computed for `[a, b]`. -/
theorem C7_freshness_antitone (a b : ℚ) (h : a < b) (p : ℚ × ℚ)
    (l1 l2 : List (ℚ × ℚ)) :
    Clipper.scene_freshness a b (l1 ++ p :: l2) ≤
      Clipper.scene_freshness a b (l1 ++ l2) := by
  rw [Clipper.scene_freshness_eq_sum, Clipper.scene_freshness_eq_sum]
  apply max_le_max le_rfl
  have hp := Clipper.overlapTerm_nonneg h p
  simp only [List.map_append, List.sum_append, List.map_cons, List.sum_cons]
  linarith

/-- Witness for C7 at the spec's freshness scenario: candidate `[0,10]`,
one new predecessor `[5,15]`, no other predecessors. -/
theorem C7_freshness_antitone_witness :
    (0 : ℚ) < 10 ∧
      Clipper.scene_freshness 0 10 ([] ++ (5, 15) :: []) ≤
        Clipper.scene_freshness 0 10 ([] ++ []) :=
  ⟨by norm_num, C7_freshness_antitone 0 10 (by norm_num) (5, 15) [] []⟩

/-- C1 amended: every Candidate interval persisted by the analyze task
satisfies `0 ≤ start_s < end_s ≤ duration` and
`clip_min_s ≤ end_s − start_s ≤ clip_max_s`, provided the scene
boundaries are non-negative and the configuration satisfies
`0 < clip_min_s`, `clip_min_s ≤ clip_max_s` and `target_s ≤ clip_max_s`
(all true of the defaults).  The unrestricted claim fails: a submitter
can override `target_s` above `clip_max_s` through the `targets` map
(see the counterexample). -/
theorem C1_persisted_invariants (boundaries : List ℚ) (D : ℚ)
    (cfg : Clipper.AnalysisConfig) (words : List Clipper.Word)
    (mot aud : List ℚ) (kws : List String) (weights : List (String × ℚ))
    (hb : ∀ x ∈ boundaries, 0 ≤ x)
    (h1 : 0 < cfg.clip_min_s)
    (h2 : cfg.clip_min_s ≤ cfg.clip_max_s)
    (h3 : cfg.target_s ≤ cfg.clip_max_s) :
    ∀ c ∈ Clipper.persistedCandidates boundaries D cfg words mot aud kws weights,
      0 ≤ c.1 ∧ c.1 < c.2 ∧ c.2 ≤ D ∧
        cfg.clip_min_s ≤ c.2 - c.1 ∧ c.2 - c.1 ≤ cfg.clip_max_s := by
  intro c hc
  unfold Clipper.persistedCandidates at hc
  rcases List.mem_map.mp hc with ⟨sc, hsc, rfl⟩
  have hsc2 := List.take_subset _ _ hsc
  have hsc3 := Clipper.mem_sortByScoreDesc.mp hsc2
  have hint : (sc.start_s, sc.end_s) ∈
      (Clipper.generateScored boundaries D cfg words mot aud kws weights).map
        (fun c => (c.start_s, c.end_s)) :=
    List.mem_map_of_mem _ hsc3
  rw [Clipper.generateScored, Clipper.intervals_runGen] at hint
  rcases Clipper.mem_genPlain.mp hint with ⟨s, t, d, hm, hlt, ha, hbmin, hmin⟩
  rcases Clipper.mem_sceneTrials.mp hm with ⟨p, hp, hsp, htp, hd⟩
  have hs0 : 0 ≤ p.1 := hb _ (Clipper.adjacentPairs_mem hp).1
  have hdmax : d ≤ cfg.clip_max_s := by
    simp only [Clipper.trials, List.mem_cons, List.not_mem_nil, or_false] at hd
    rcases hd with rfl | rfl | rfl
    · exact h3
    · exact h2
    · exact le_refl _
  show 0 ≤ sc.start_s ∧ sc.start_s < sc.end_s ∧ sc.end_s ≤ D ∧
    cfg.clip_min_s ≤ sc.end_s - sc.start_s ∧ sc.end_s - sc.start_s ≤ cfg.clip_max_s
  refine ⟨?_, ?_, ?_, hmin, ?_⟩
  · rw [ha, hsp]; exact hs0
  · linarith
  · rw [hbmin]; exact min_le_right _ _
  · have hble : min (min (s + d) t) D ≤ s + d :=
      le_trans (min_le_left _ _) (min_le_left _ _)
    rw [ha, hbmin]
    linarith

/-- Witness for C1 at the default configuration on a duration-30 video
with scene boundaries `[0, 30]` and an empty transcript. -/
theorem C1_persisted_invariants_witness :
    (∀ x ∈ [(0 : ℚ), 30], 0 ≤ x) ∧
      (0 : ℚ) < Clipper.defaultConfig.clip_min_s ∧
      Clipper.defaultConfig.clip_min_s ≤ Clipper.defaultConfig.clip_max_s ∧
      Clipper.defaultConfig.target_s ≤ Clipper.defaultConfig.clip_max_s ∧
      (∀ c ∈ Clipper.persistedCandidates [0, 30] 30 Clipper.defaultConfig
          [] [] [] [] [],
        0 ≤ c.1 ∧ c.1 < c.2 ∧ c.2 ≤ 30 ∧
          Clipper.defaultConfig.clip_min_s ≤ c.2 - c.1 ∧
          c.2 - c.1 ≤ Clipper.defaultConfig.clip_max_s) :=
  ⟨by norm_num, by norm_num [Clipper.defaultConfig],
    by norm_num [Clipper.defaultConfig], by norm_num [Clipper.defaultConfig],
    C1_persisted_invariants [0, 30] 30 Clipper.defaultConfig [] [] [] [] []
      (by norm_num) (by norm_num [Clipper.defaultConfig])
      (by norm_num [Clipper.defaultConfig]) (by norm_num [Clipper.defaultConfig])⟩

/-- C1 counterexample: with `clip_min_s = 7`, `clip_max_s = 15` and the
submitter's `targets` override `target_s = 20` (the endpoint merges the
user's `targets` dict over the defaults with no validation), a video of
duration 30 with scene boundaries `[0, 30]` persists the candidate
`(0, 20)`, whose length 20 exceeds `clip_max_s = 15`. -/
theorem C1_counterexample :
    (0, 20) ∈ Clipper.persistedCandidates [0, 30] 30
        ⟨7, 15, 20, 20⟩ [] [] [] [] [] ∧
      ¬ ((20 : ℚ) - 0 ≤ Clipper.AnalysisConfig.clip_max_s ⟨7, 15, 20, 20⟩) := by
  constructor
  · have hplain : Clipper.genPlain 30
        (Clipper.AnalysisConfig.clip_min_s ⟨7, 15, 20, 20⟩)
        (Clipper.sceneTrials [0, 30] ⟨7, 15, 20, 20⟩)
        = [(0, 20), (0, 7), (0, 15)] := by
      have hst : Clipper.sceneTrials [0, 30] ⟨7, 15, 20, 20⟩
          = [(0, 30, 20), (0, 30, 7), (0, 30, 15)] := by
        simp [Clipper.sceneTrials, Clipper.adjacentPairs, Clipper.trials]
      rw [hst]
      simp only [Clipper.genPlain]
      norm_num
    have hmap := Clipper.intervals_runGen 30
      (Clipper.AnalysisConfig.clip_min_s ⟨7, 15, 20, 20⟩)
      (Clipper.analyzeScorer [] [] [] [] [])
      (Clipper.sceneTrials [0, 30] ⟨7, 15, 20, 20⟩) []
    have hmap2 : (Clipper.generateScored [0, 30] 30 ⟨7, 15, 20, 20⟩
        [] [] [] [] []).map (fun c => (c.start_s, c.end_s))
        = [(0, 20), (0, 7), (0, 15)] := by
      rw [Clipper.generateScored, hmap, hplain]
    have hlen : (Clipper.generateScored [0, 30] 30 ⟨7, 15, 20, 20⟩
        [] [] [] [] []).length = 3 := by
      have := congrArg List.length hmap2
      simpa using this
    have hmem : (0, 20) ∈ (Clipper.generateScored [0, 30] 30 ⟨7, 15, 20, 20⟩
        [] [] [] [] []).map (fun c => (c.start_s, c.end_s)) := by
      rw [hmap2]; simp
    rcases List.mem_map.mp hmem with ⟨sc, hsc, heq⟩
    have hsort : sc ∈ Clipper.sortByScoreDesc (Clipper.generateScored [0, 30] 30
        ⟨7, 15, 20, 20⟩ [] [] [] [] []) := Clipper.mem_sortByScoreDesc.mpr hsc
    have htake : (Clipper.sortByScoreDesc (Clipper.generateScored [0, 30] 30
        ⟨7, 15, 20, 20⟩ [] [] [] [] [])).take 20
        = Clipper.sortByScoreDesc (Clipper.generateScored [0, 30] 30
        ⟨7, 15, 20, 20⟩ [] [] [] [] []) := by
      apply List.take_of_length_le
      rw [Clipper.length_sortByScoreDesc, hlen]
      norm_num
    unfold Clipper.persistedCandidates
    rw [htake]
    exact heq ▸ List.mem_map_of_mem _ hsort
  · norm_num

/-- C8 counterexample: the detector's output is not strictly increasing
for every input video.  With `fps = 10`, a container-reported duration of
`0.2` and one histogram comparison whose distance 1 exceeds the default
threshold 0.3 (the comparison happens at sampled frame 3, i.e. timestamp
0.3), the output is `[0, 0.3, 0.2]`: the unconditionally appended
duration is smaller than the emitted boundary. -/
theorem C8_counterexample :
    Clipper.detect_scenes 10 (1 / 5) (3 / 10) [1] = [0, 3 / 10, 1 / 5] ∧
      ¬ List.Pairwise (· < ·) (Clipper.detect_scenes 10 (1 / 5) (3 / 10) [1]) := by
  have heq : Clipper.detect_scenes 10 (1 / 5) (3 / 10) [1] = [0, 3 / 10, 1 / 5] := by
    simp only [Clipper.detect_scenes, Clipper.cutTimes]
    norm_num
  refine ⟨heq, ?_⟩
  rw [heq]
  intro hp
  have h1 := (List.pairwise_cons.mp hp).2
  have h2 := (List.pairwise_cons.mp h1).1 (1 / 5) (by simp)
  norm_num at h2

/-- C8 amended: the scene-boundary list always begins with `0.0` and
always ends with `duration`; it is strictly increasing provided
`fps > 0`, `duration > 0` and every emitted cut timestamp is smaller
than `duration` (true of a well-formed video, whose frames all lie
within its reported duration; the code itself never enforces it). -/
theorem C8_scene_boundaries (fps duration threshold : ℚ) (diffs : List ℚ)
    (hfps : 0 < fps) (hdur : 0 < duration)
    (hin : ∀ x ∈ Clipper.cutTimes fps threshold 0 diffs, x < duration) :
    List.Pairwise (· < ·) (Clipper.detect_scenes fps duration threshold diffs) ∧
      (Clipper.detect_scenes fps duration threshold diffs).head? = some 0 ∧
      (Clipper.detect_scenes fps duration threshold diffs).getLast? = some duration := by
  refine ⟨?_, rfl, ?_⟩
  · unfold Clipper.detect_scenes
    refine List.pairwise_cons.mpr ⟨?_, ?_⟩
    · intro x hx
      rcases List.mem_append.mp hx with hx' | hx'
      · exact Clipper.cutTimes_pos hfps diffs 0 x hx'
      · rw [List.mem_singleton.mp hx']
        exact hdur
    · rw [List.pairwise_append]
      refine ⟨Clipper.cutTimes_pairwise hfps diffs 0, List.pairwise_singleton _ _, ?_⟩
      intro x hx y hy
      rw [List.mem_singleton.mp hy]
      exact hin x hx
  · show (List.getLast? (0 :: (Clipper.cutTimes fps threshold 0 diffs ++ [duration]))) = _
    rw [← List.cons_append, List.getLast?_concat]

/-- Witness for C8: `fps = 24`, duration 5, default threshold, two
comparisons of which the first (distance 1 at timestamp `3/24`) fires. -/
theorem C8_scene_boundaries_witness :
    (0 : ℚ) < 24 ∧ (0 : ℚ) < 5 ∧
      (∀ x ∈ Clipper.cutTimes 24 (3 / 10) 0 [1, 0], x < 5) ∧
      (List.Pairwise (· < ·) (Clipper.detect_scenes 24 5 (3 / 10) [1, 0]) ∧
        (Clipper.detect_scenes 24 5 (3 / 10) [1, 0]).head? = some 0 ∧
        (Clipper.detect_scenes 24 5 (3 / 10) [1, 0]).getLast? = some 5) := by
  have hcut : Clipper.cutTimes 24 (3 / 10) 0 [1, 0] = [1 / 8] := by
    simp only [Clipper.cutTimes]
    norm_num
  refine ⟨by norm_num, by norm_num, ?_, ?_⟩
  · rw [hcut]
    intro x hx
    rw [List.mem_singleton.mp hx]
    norm_num
  · exact C8_scene_boundaries 24 5 (3 / 10) [1, 0] (by norm_num) (by norm_num)
      (by rw [hcut]; intro x hx; rw [List.mem_singleton.mp hx]; norm_num)

/-- C5 counterexample: terminal statuses are not absorbing.  A worker
dequeuing the message of a job already `cancelled` runs the task entry
block, which unconditionally writes `status = 'processing'` — a
non-terminal status. -/
theorem C5_counterexample :
    Clipper.terminalStatus "cancelled" ∧
      (Clipper.applyEvent ⟨"cancelled", 0, 0⟩ .workerStart).status = "processing" ∧
      ¬ Clipper.terminalStatus "processing" := by
  refine ⟨Or.inr (Or.inr rfl), rfl, ?_⟩
  rintro (h | h | h) <;> exact absurd h (by decide)

/-- C5 amended: terminal statuses are absorbing under the cancellation
endpoint (it rejects a job that is not pending/processing and leaves the
row unchanged), under the completion and failure writes (terminal to
terminal), and under Candidate inserts (status untouched) — but not
under the worker's task entry, which sets `processing` unconditionally,
so a cancelled job whose queue message is dequeued moves back to
`processing`. -/
theorem C5_terminal_absorbing_except_worker_start (st : Clipper.JobState)
    (h : Clipper.terminalStatus st.status) :
    Clipper.applyEvent st .cancelReq = st ∧
      Clipper.terminalStatus (Clipper.applyEvent st .complete).status ∧
      Clipper.terminalStatus (Clipper.applyEvent st .fail).status ∧
      (Clipper.applyEvent st .addCandidate).status = st.status ∧
      (Clipper.applyEvent st .workerStart).status = "processing" := by
  have hnc : ¬ (st.status = "pending" ∨ st.status = "processing") := by
    rintro (hc | hc) <;> rcases h with h | h | h <;> rw [h] at hc <;>
      exact absurd hc (by decide)
  refine ⟨?_, Or.inl rfl, Or.inr (Or.inl rfl), rfl, rfl⟩
  show (if st.status = "pending" ∨ st.status = "processing" then _ else st) = st
  rw [if_neg hnc]

/-- Witness for C5 at a cancelled job. -/
theorem C5_terminal_absorbing_witness :
    Clipper.terminalStatus "cancelled" ∧
      (Clipper.applyEvent ⟨"cancelled", 40, 2⟩ .cancelReq = ⟨"cancelled", 40, 2⟩ ∧
        Clipper.terminalStatus (Clipper.applyEvent ⟨"cancelled", 40, 2⟩ .complete).status ∧
        Clipper.terminalStatus (Clipper.applyEvent ⟨"cancelled", 40, 2⟩ .fail).status ∧
        (Clipper.applyEvent ⟨"cancelled", 40, 2⟩ .addCandidate).status = "cancelled" ∧
        (Clipper.applyEvent ⟨"cancelled", 40, 2⟩ .workerStart).status = "processing") :=
  ⟨Or.inr (Or.inr rfl),
    C5_terminal_absorbing_except_worker_start ⟨"cancelled", 40, 2⟩ (Or.inr (Or.inr rfl))⟩

/-- C6 counterexample: cancelling a processing analyze job does not stop
the worker at the next milestone.  Injecting the cancellation right
after the worker's entry block, the run still inserts its Candidate row
and overwrites the status to `completed` — even though the row really
was `cancelled` at the injection point. -/
theorem C6_counterexample :
    Clipper.cancelAt 1 (Clipper.analyzeRun 1) =
      [.workerStart, .cancelReq, .addCandidate, .complete] ∧
      (Clipper.applyTrace Clipper.initJob [.workerStart, .cancelReq]).status
        = "cancelled" ∧
      Clipper.applyTrace Clipper.initJob (Clipper.cancelAt 1 (Clipper.analyzeRun 1)) =
        ⟨"completed", 100, 1⟩ := by
  decide

/-- C6 amended: the worker never re-reads the job status after its entry
block, so a cancellation request arriving at any point of an analyze run
(before, between any two writes, or after) does not stop it: the run
still stores all `k` Candidate rows and finishes with
`status = 'completed'`, `progress = 100`. -/
theorem C6_cancellation_never_observed (k i : ℕ) :
    Clipper.applyTrace Clipper.initJob
        (Clipper.cancelAt i (Clipper.analyzeRun k)) =
      ⟨"completed", 100, k⟩ := by
  cases i with
  | zero =>
    show Clipper.applyTrace
      (Clipper.applyEvent (Clipper.applyEvent Clipper.initJob .cancelReq) .workerStart)
      (List.replicate k Clipper.JobEvent.addCandidate ++ [Clipper.JobEvent.complete]) = _
    rw [Clipper.run_tail, Clipper.applyEvent_workerStart_candidates,
      Clipper.applyEvent_cancel_candidates]
    rw [show Clipper.initJob.candidates = 0 from rfl, Nat.zero_add]
  | succ n =>
    show Clipper.applyTrace (Clipper.applyEvent Clipper.initJob .workerStart)
      (Clipper.cancelAt n
        (List.replicate k Clipper.JobEvent.addCandidate ++ [Clipper.JobEvent.complete])) = _
    rw [Clipper.cancel_run_tail, Clipper.applyEvent_workerStart_candidates]
    rw [show Clipper.initJob.candidates = 0 from rfl, Nat.zero_add]

/-- C9: the retry endpoint does not relaunch with the original run's
parameters.  For a failed analyze job submitted with
`keywords = ["fight"]` and `targets = {clip_min_s: 5}`, the original
effective config has `clip_min_s = 5` and keywords `["fight"]`; but a
failed job's logs are `{error: msg}` — no code path stores a `config`
key — so `retry_job` falls back to `load_config()`, the nested
`{analysis, scoring, whisper}` object, on which the worker's flat
`config.get('clip_min_s', 7)` and `config.get('keywords', [])` reads
yield the defaults 7 and `[]`, contradicting the endpoint's own
docstring "Creates a new job with the same parameters as the failed
one". -/
theorem C9_retry_loses_original_config :
    Clipper.cfgNum (Clipper.buildAnalysisConfig ["fight"]
        [("clip_min_s", Clipper.JVal.num 5)]) "clip_min_s" 7 = 5 ∧
      Clipper.cfgArr (Clipper.buildAnalysisConfig ["fight"]
        [("clip_min_s", Clipper.JVal.num 5)]) "keywords"
        = [Clipper.JVal.str "fight"] ∧
      Clipper.retryLaunchConfig (Clipper.analyzeFailureLogs "ffmpeg failed")
        = Clipper.load_config ∧
      Clipper.cfgNum (Clipper.asObj (Clipper.retryLaunchConfig
        (Clipper.analyzeFailureLogs "ffmpeg failed"))) "clip_min_s" 7 = 7 ∧
      Clipper.cfgArr (Clipper.asObj (Clipper.retryLaunchConfig
        (Clipper.analyzeFailureLogs "ffmpeg failed"))) "keywords" = [] :=
  ⟨rfl, rfl, rfl, rfl, rfl⟩

/-- C4 counterexample: `("c1", "9:16")` renders and uploads
successfully, then `("c2", "9:16")` fails; the exception handler
replaces `files` with the `{'error': msg}` dict, so the completed pair's
`files["c1"]["9:16"]` key does not survive — the claim's "already
uploaded entries are preserved in files" and its iff both fail. -/
theorem C4_counterexample :
    (Clipper.RenderEnv.mk (fun c => c == "c1" || c == "c2")
        (fun c _ => c == "c1")).renderOk "c1" "9:16" = true ∧
      (Clipper.render_clips_task
        (Clipper.RenderEnv.mk (fun c => c == "c1" || c == "c2")
          (fun c _ => c == "c1"))
        "r" ["c1", "c2"] ["9:16"]).1 = "failed" ∧
      ¬ Clipper.hasFile (Clipper.render_clips_task
        (Clipper.RenderEnv.mk (fun c => c == "c1" || c == "c2")
          (fun c _ => c == "c1"))
        "r" ["c1", "c2"] ["9:16"]).2 "c1" "9:16" :=
  ⟨rfl, rfl, fun h => h⟩

/-- C4 amended: a render ends `completed` or `failed`; on any pair's
failure the whole render is marked `failed` and `files` is replaced by
the `{'error': msg}` dict (the already-uploaded blobs are not deleted
from storage, but their `files` entries are discarded); a
`files[candidate_id][aspect]` key exists iff the render completed and
that pair was attempted — its candidate id listed and resolvable and its
aspect requested. -/
theorem C4_files_vs_failure (env : Clipper.RenderEnv) (rid : String)
    (ids outs : List String) :
    ((Clipper.render_clips_task env rid ids outs).1 = "completed" ∨
      ((Clipper.render_clips_task env rid ids outs).1 = "failed" ∧
        ∃ msg, (Clipper.render_clips_task env rid ids outs).2 =
          Clipper.RFiles.errObj msg)) ∧
      ∀ c a, Clipper.hasFile (Clipper.render_clips_task env rid ids outs).2 c a ↔
        ((Clipper.render_clips_task env rid ids outs).1 = "completed" ∧
          c ∈ ids ∧ env.candExists c = true ∧ a ∈ outs) := by
  rcases Clipper.renderLoop_cases env rid outs ids Clipper.emptyFiles with
    ⟨m, heq, hiff⟩ | ⟨msg, heq⟩
  · have heq' : Clipper.render_clips_task env rid ids outs = ("completed", .map m) := heq
    rw [heq']
    refine ⟨Or.inl rfl, ?_⟩
    intro c a
    show Clipper.fileSet m c a ↔ _
    rw [hiff]
    have hne := Clipper.fileSet_empty c a
    tauto
  · have heq' : Clipper.render_clips_task env rid ids outs =
      ("failed", .errObj msg) := heq
    rw [heq']
    refine ⟨Or.inr ⟨rfl, msg, rfl⟩, ?_⟩
    intro c a
    constructor
    · rintro h
      exact absurd h (fun hh => hh)
    · rintro ⟨h1, -⟩
      have hne : ("failed" : String) ≠ "completed" := by decide
      exact absurd h1 hne

/-- C10: a listed candidate id with no Candidate row is silently
skipped — provided every resolvable pair renders successfully, the
render still completes, the missing id gets no `files` entry, and if
every listed id is missing the render ends `completed` with an empty
`files` map and no error. -/
theorem C10_missing_candidate_skipped (env : Clipper.RenderEnv) (rid : String)
    (ids outs : List String)
    (hok : ∀ c ∈ ids, env.candExists c = true → ∀ a ∈ outs, env.renderOk c a = true) :
    (Clipper.render_clips_task env rid ids outs).1 = "completed" ∧
      (∀ c ∈ ids, env.candExists c = false →
        ∀ a, ¬ Clipper.hasFile (Clipper.render_clips_task env rid ids outs).2 c a) ∧
      ((∀ c ∈ ids, env.candExists c = false) →
        Clipper.render_clips_task env rid ids outs =
          ("completed", Clipper.RFiles.map Clipper.emptyFiles)) := by
  obtain ⟨m, heq⟩ := Clipper.renderLoop_all_ok env rid outs ids Clipper.emptyFiles hok
  have heq' : Clipper.render_clips_task env rid ids outs = ("completed", .map m) := heq
  refine ⟨by rw [heq'], ?_, ?_⟩
  · intro c hc hmiss a
    rcases Clipper.renderLoop_cases env rid outs ids Clipper.emptyFiles with
      ⟨m2, heq2, hiff⟩ | ⟨msg, heq2⟩
    · have heq2' : Clipper.render_clips_task env rid ids outs =
        ("completed", .map m2) := heq2
      rw [heq2']
      show ¬ Clipper.fileSet m2 c a
      rw [hiff]
      rintro (h | ⟨-, hcex, -⟩)
      · exact Clipper.fileSet_empty c a h
      · rw [hmiss] at hcex
        exact absurd hcex (by decide)
    · have heq2' : Clipper.render_clips_task env rid ids outs =
        ("failed", .errObj msg) := heq2
      rw [heq'] at heq2'
      have hne : ("completed" : String) ≠ "failed" := by decide
      exact absurd (congrArg Prod.fst heq2') hne
  · intro hmiss
    exact Clipper.renderLoop_all_missing env rid outs ids Clipper.emptyFiles hmiss

/-- Witness for C10: `"c1"` resolves and renders, `"nope"` is missing. -/
theorem C10_missing_candidate_skipped_witness :
    (∀ c ∈ ["c1", "nope"],
        (Clipper.RenderEnv.mk (fun c => c == "c1") (fun _ _ => true)).candExists c
          = true →
        ∀ a ∈ ["9:16"],
          (Clipper.RenderEnv.mk (fun c => c == "c1") (fun _ _ => true)).renderOk c a
            = true) ∧
      ((Clipper.render_clips_task
          (Clipper.RenderEnv.mk (fun c => c == "c1") (fun _ _ => true))
          "r" ["c1", "nope"] ["9:16"]).1 = "completed" ∧
        (∀ c ∈ ["c1", "nope"],
          (Clipper.RenderEnv.mk (fun c => c == "c1") (fun _ _ => true)).candExists c
            = false →
          ∀ a, ¬ Clipper.hasFile (Clipper.render_clips_task
            (Clipper.RenderEnv.mk (fun c => c == "c1") (fun _ _ => true))
            "r" ["c1", "nope"] ["9:16"]).2 c a) ∧
        ((∀ c ∈ ["c1", "nope"],
            (Clipper.RenderEnv.mk (fun c => c == "c1") (fun _ _ => true)).candExists c
              = false) →
          Clipper.render_clips_task
            (Clipper.RenderEnv.mk (fun c => c == "c1") (fun _ _ => true))
            "r" ["c1", "nope"] ["9:16"] =
            ("completed", Clipper.RFiles.map Clipper.emptyFiles))) :=
  ⟨fun _ _ _ _ _ => rfl,
    C10_missing_candidate_skipped
      (Clipper.RenderEnv.mk (fun c => c == "c1") (fun _ _ => true))
      "r" ["c1", "nope"] ["9:16"] (fun _ _ _ _ _ => rfl)⟩
